import Mathlib

/-!
# Verification of the viral-analyzer core

A shallow embedding of the scoring and keyword-aggregation engine of the
`viral_analyzer` repository (files `viral_analyzer.py`, `keyword_analyzer.py`,
`config.py`), together with proofs and refutations of the specification's
claims about it.

Modelling conventions:
* Python floats are modelled by exact rationals (`ℚ`); decimal literals such
  as `0.02` become the exact rationals they denote.
* Python's built-in `round` (banker's rounding, round-half-to-even) is
  modelled exactly on `ℚ` by `pyRoundInt` / `pyRound`.
* `datetime` handling: `calculate_viral_score` only uses the whole-day
  difference `(now - published_at).days`, which we pass in as an integer
  `rawDays`; `analyze_trends` only uses the day-of-week name and the hour of
  the parsed timestamp, so a parsed timestamp is modelled by its epoch-day
  number and hour.
* Counts coming from the API are non-negative integers (`ℕ`), as the spec's
  data model states.
-/

/-- Banker's rounding of a rational to the nearest integer
(round half to even), the semantics of Python's built-in `round(x)`. -/
def pyRoundInt (y : ℚ) : ℤ :=
  if Int.fract y < 1/2 then ⌊y⌋
  else if 1/2 < Int.fract y then ⌊y⌋ + 1
  else if ⌊y⌋ % 2 = 0 then ⌊y⌋ else ⌊y⌋ + 1

/-- Python's `round(x, n)` for `n` decimal digits, on exact rationals. -/
def pyRound (n : ℕ) (x : ℚ) : ℚ :=
  (pyRoundInt (x * 10 ^ n) : ℚ) / 10 ^ n

/-- The `VIRAL_THRESHOLDS` configuration dict of `config.py`. -/
structure Thresholds where
  views_per_day : ℚ
  like_ratio : ℚ
  comment_ratio : ℚ
  engagement_score : ℚ
deriving DecidableEq

/-- `config.VIRAL_THRESHOLDS`: views_per_day 10000, like_ratio 0.02,
comment_ratio 0.001, engagement_score 50. -/
def VIRAL_THRESHOLDS : Thresholds :=
  { views_per_day := 10000
    like_ratio := 2/100
    comment_ratio := 1/1000
    engagement_score := 50 }

/-- The metric fields of a `video_data` dict used by the scorer. -/
structure VideoData where
  view_count : ℕ
  like_count : ℕ
  comment_count : ℕ
deriving DecidableEq

/-- The field of a `channel_data` dict used by the scorer. -/
structure ChannelData where
  subscriber_count : ℕ
deriving DecidableEq

/-- `days_since_published = max(1, (now - published_date).days)`
(viral_analyzer.py lines 27-28); `rawDays` is the raw whole-day difference. -/
def daysSincePublished (rawDays : ℤ) : ℤ := max 1 rawDays

/-- `views_per_day = view_count / days_since_published` (line 31). -/
def viewsPerDay (v : VideoData) (rawDays : ℤ) : ℚ :=
  (v.view_count : ℚ) / (daysSincePublished rawDays : ℚ)

/-- `like_ratio = like_count / max(view_count, 1)` (line 32). -/
def likeRatio (v : VideoData) : ℚ :=
  (v.like_count : ℚ) / ((max v.view_count 1 : ℕ) : ℚ)

/-- `comment_ratio = comment_count / max(view_count, 1)` (line 33). -/
def commentRatio (v : VideoData) : ℚ :=
  (v.comment_count : ℚ) / ((max v.view_count 1 : ℕ) : ℚ)

/-- `engagement_score = (like_count + comment_count * 5) / max(view_count, 1)
* 10000` (line 36). -/
def engagementScore (v : VideoData) : ℚ :=
  ((v.like_count : ℚ) + (v.comment_count : ℚ) * 5) / ((max v.view_count 1 : ℕ) : ℚ) * 10000

/-- Lines 39-42: `channel_performance_ratio` defaults to `1.0`; when channel
data with positive `subscriber_count` is present it becomes
`view_count / max(subscriber_count * 0.1, 1)`. -/
def channelPerformanceRatio (v : VideoData) (c : Option ChannelData) : ℚ :=
  match c with
  | none => 1
  | some ch =>
    if 0 < ch.subscriber_count then
      (v.view_count : ℚ) / max ((ch.subscriber_count : ℚ) * (1/10)) 1
    else 1

/-- The `score_components` dict (lines 45-50). -/
structure ScoreComponents where
  views_per_day_score : ℚ
  like_ratio_score : ℚ
  comment_ratio_score : ℚ
  engagement_score : ℚ
deriving DecidableEq

/-- Lines 45-50: each sub-score is `min(raw_metric / threshold * 25, 25)`. -/
def scoreComponents (t : Thresholds) (v : VideoData) (rawDays : ℤ) : ScoreComponents :=
  { views_per_day_score := min (viewsPerDay v rawDays / t.views_per_day * 25) 25
    like_ratio_score := min (likeRatio v / t.like_ratio * 25) 25
    comment_ratio_score := min (commentRatio v / t.comment_ratio * 25) 25
    engagement_score := min (engagementScore v / t.engagement_score * 25) 25 }

/-- `viral_score = sum(score_components.values())` (line 52). -/
def componentsSum (s : ScoreComponents) : ℚ :=
  s.views_per_day_score + s.like_ratio_score + s.comment_ratio_score + s.engagement_score

/-- Lines 55-56: `if channel_performance_ratio > 2: viral_score +=
min(20, (channel_performance_ratio - 1) * 5)`; otherwise nothing is added. -/
def channelBonus (r : ℚ) : ℚ :=
  if 2 < r then min 20 ((r - 1) * 5) else 0

/-- The viral score just before the final clamp: component sum plus bonus. -/
def viralScorePre (t : Thresholds) (v : VideoData) (c : Option ChannelData) (rawDays : ℤ) : ℚ :=
  componentsSum (scoreComponents t v rawDays) + channelBonus (channelPerformanceRatio v c)

/-- `viral_score = min(100, viral_score)` (line 58): the clamped score. -/
def viralScoreFinal (t : Thresholds) (v : VideoData) (c : Option ChannelData) (rawDays : ℤ) : ℚ :=
  min 100 (viralScorePre t v c rawDays)

/-- The dict returned by `calculate_viral_score` (lines 60-70).  Note that
`viral_score` is rounded to 2 decimals while `is_viral` compares the
unrounded score with 70. -/
structure ViralAnalysis where
  viral_score : ℚ
  views_per_day : ℚ
  like_ratio : ℚ
  comment_ratio : ℚ
  engagement_score : ℚ
  channel_performance_ratio : ℚ
  days_since_published : ℤ
  is_viral : Bool
  score_components : ScoreComponents
deriving DecidableEq

/-- `ViralAnalyzer.calculate_viral_score` (viral_analyzer.py lines 14-70),
with `rawDays` standing for the whole-day difference between the current
time and the parsed `published_at`. -/
def calculate_viral_score (t : Thresholds) (video : VideoData)
    (channel : Option ChannelData) (rawDays : ℤ) : ViralAnalysis :=
  { viral_score := pyRound 2 (viralScoreFinal t video channel rawDays)
    views_per_day := pyRound 2 (viewsPerDay video rawDays)
    like_ratio := pyRound 4 (likeRatio video * 100)
    comment_ratio := pyRound 4 (commentRatio video * 100)
    engagement_score := pyRound 2 (engagementScore video)
    channel_performance_ratio := pyRound 2 (channelPerformanceRatio video channel)
    days_since_published := daysSincePublished rawDays
    is_viral := decide (70 ≤ viralScoreFinal t video channel rawDays)
    score_components := scoreComponents t video rawDays }

/-- The four recommendation strings of `get_growth_recommendation`
(lines 203-214). -/
def get_growth_recommendation (potential_score : ℕ) : String :=
  if 80 ≤ potential_score then "🚀 매우 높은 바이럴 가능성! 추가 프로모션을 고려해보세요."
  else if 60 ≤ potential_score then "📈 좋은 성장세입니다. SNS 공유를 늘려보세요."
  else if 40 ≤ potential_score then "💡 보통 수준입니다. 썸네일이나 제목 최적화를 고려해보세요."
  else "📊 성장이 더딘 상태입니다. 컨텐츠 전략 재검토가 필요할 수 있습니다."

/-- The dict returned by `predict_viral_potential` on success
(lines 195-201). -/
structure PredictOutput where
  viral_potential_score : ℕ
  predicted_24h_views : ℤ
  predicted_24h_engagement : ℤ
  current_growth_rate : ℚ
  recommendation : String
deriving DecidableEq

/-- Result of `predict_viral_potential`: `insufficientData` models the early
return `{"prediction": "분석하기에는 시간이 부족합니다."}` (line 165), the
spec's `InsufficientData` error, which carries no `viral_potential_score`. -/
inductive PredictResult where
  | insufficientData
  | success (o : PredictOutput)
deriving DecidableEq

/-- Dict lookup `result.get('viral_potential_score')` on a prediction
result: `none` on the insufficient-data dict. -/
def PredictResult.getScore : PredictResult → Option ℕ
  | .insufficientData => none
  | .success o => some o.viral_potential_score

/-- `ViralAnalyzer.predict_viral_potential` (lines 153-201). -/
def predict_viral_potential (t : Thresholds) (v : VideoData) (hours_since_upload : ℚ) :
    PredictResult :=
  if hours_since_upload < 1 then .insufficientData
  else
    let views_per_hour := (v.view_count : ℚ) / hours_since_upload
    let likes_per_hour := (v.like_count : ℚ) / hours_since_upload
    let comments_per_hour := (v.comment_count : ℚ) / hours_since_upload
    let predicted_24h_views := views_per_hour * 24
    let predicted_24h_engagement := (likes_per_hour + comments_per_hour * 5) * 24
    let s1 : ℕ :=
      if t.views_per_day < predicted_24h_views then 40
      else if t.views_per_day * (1/2) < predicted_24h_views then 20
      else 0
    let s2 : ℕ :=
      if 1000 < predicted_24h_engagement then 30
      else if 500 < predicted_24h_engagement then 15
      else 0
    let s3 : ℕ := if hours_since_upload ≤ 6 ∧ 1000 < views_per_hour then 30 else 0
    let potential_score := min 100 (s1 + s2 + s3)
    .success
      { viral_potential_score := potential_score
        predicted_24h_views := pyRoundInt predicted_24h_views
        predicted_24h_engagement := pyRoundInt predicted_24h_engagement
        current_growth_rate := pyRound 2 views_per_hour
        recommendation := get_growth_recommendation potential_score }

/-! ## Bounds for banker's rounding -/

lemma pyRoundInt_nonneg {y : ℚ} (hy : 0 ≤ y) : 0 ≤ pyRoundInt y := by
  have hf : 0 ≤ ⌊y⌋ := Int.floor_nonneg.mpr hy
  unfold pyRoundInt
  split
  · exact hf
  · split
    · omega
    · split <;> omega

lemma pyRoundInt_le {y : ℚ} {M : ℤ} (h : y ≤ (M : ℚ)) : pyRoundInt y ≤ M := by
  have h1 : ⌊y⌋ ≤ M := by
    have h2 := Int.floor_mono h
    rwa [Int.floor_intCast] at h2
  unfold pyRoundInt
  split
  · exact h1
  · rename_i hge
    rw [Int.fract, not_lt] at hge
    have h3 : (⌊y⌋ : ℚ) + 1/2 ≤ (M : ℚ) := by linarith
    have h4 : ⌊y⌋ < M := by
      have h5 : (⌊y⌋ : ℚ) < (M : ℚ) := by linarith
      exact_mod_cast h5
    split
    · omega
    · split <;> omega

lemma pyRound_nonneg {x : ℚ} (n : ℕ) (h : 0 ≤ x) : 0 ≤ pyRound n x := by
  rw [pyRound]
  apply div_nonneg _ (by positivity)
  exact_mod_cast pyRoundInt_nonneg (by positivity)

lemma pyRound_le {x : ℚ} {M : ℤ} (n : ℕ) (h : x ≤ (M : ℚ)) : pyRound n x ≤ (M : ℚ) := by
  rw [pyRound, div_le_iff₀ (by positivity : (0:ℚ) < 10 ^ n)]
  have h1 : pyRoundInt (x * 10 ^ n) ≤ M * 10 ^ n := by
    apply pyRoundInt_le
    push_cast
    exact mul_le_mul_of_nonneg_right h (by positivity)
  calc (pyRoundInt (x * 10 ^ n) : ℚ) ≤ ((M * 10 ^ n : ℤ) : ℚ) := by exact_mod_cast h1
    _ = (M : ℚ) * 10 ^ n := by push_cast; ring

/-! ## Nonnegativity of the raw metrics -/

lemma daysSincePublished_pos (d : ℤ) : 0 < daysSincePublished d :=
  lt_of_lt_of_le one_pos (le_max_left 1 d)

lemma viewsPerDay_nonneg (v : VideoData) (d : ℤ) : 0 ≤ viewsPerDay v d := by
  apply div_nonneg (Nat.cast_nonneg _)
  exact_mod_cast (daysSincePublished_pos d).le

lemma likeRatio_nonneg (v : VideoData) : 0 ≤ likeRatio v :=
  div_nonneg (Nat.cast_nonneg _) (Nat.cast_nonneg _)

lemma commentRatio_nonneg (v : VideoData) : 0 ≤ commentRatio v :=
  div_nonneg (Nat.cast_nonneg _) (Nat.cast_nonneg _)

lemma engagementScore_nonneg (v : VideoData) : 0 ≤ engagementScore v := by
  unfold engagementScore
  positivity

lemma channelPerformanceRatio_nonneg (v : VideoData) (c : Option ChannelData) :
    0 ≤ channelPerformanceRatio v c := by
  unfold channelPerformanceRatio
  match c with
  | none => norm_num
  | some ch =>
    dsimp only
    split
    · apply div_nonneg (Nat.cast_nonneg _)
      exact le_trans zero_le_one (le_max_right _ 1)
    · norm_num

lemma channelBonus_nonneg (r : ℚ) : 0 ≤ channelBonus r := by
  unfold channelBonus
  split
  · rename_i hr
    exact le_min (by norm_num) (by linarith)
  · exact le_refl 0

lemma channelBonus_le (r : ℚ) : channelBonus r ≤ 20 := by
  unfold channelBonus
  split
  · exact min_le_left _ _
  · norm_num

/-- A single sub-score `min(metric / threshold * 25, 25)` is in `[0, 25]`
whenever the metric is non-negative and the threshold positive. -/
lemma subscore_bounds {m t : ℚ} (hm : 0 ≤ m) (ht : 0 < t) :
    0 ≤ min (m / t * 25) 25 ∧ min (m / t * 25) 25 ≤ 25 :=
  ⟨le_min (by positivity) (by norm_num), min_le_right _ _⟩

lemma scoreComponents_bounds (t : Thresholds) (v : VideoData) (rawDays : ℤ)
    (h1 : 0 < t.views_per_day) (h2 : 0 < t.like_ratio)
    (h3 : 0 < t.comment_ratio) (h4 : 0 < t.engagement_score) :
    (0 ≤ (scoreComponents t v rawDays).views_per_day_score ∧
      (scoreComponents t v rawDays).views_per_day_score ≤ 25) ∧
    (0 ≤ (scoreComponents t v rawDays).like_ratio_score ∧
      (scoreComponents t v rawDays).like_ratio_score ≤ 25) ∧
    (0 ≤ (scoreComponents t v rawDays).comment_ratio_score ∧
      (scoreComponents t v rawDays).comment_ratio_score ≤ 25) ∧
    (0 ≤ (scoreComponents t v rawDays).engagement_score ∧
      (scoreComponents t v rawDays).engagement_score ≤ 25) := by
  refine ⟨?_, ?_, ?_, ?_⟩
  · exact subscore_bounds (viewsPerDay_nonneg v rawDays) h1
  · exact subscore_bounds (likeRatio_nonneg v) h2
  · exact subscore_bounds (commentRatio_nonneg v) h3
  · exact subscore_bounds (engagementScore_nonneg v) h4

lemma viralScoreFinal_bounds (t : Thresholds) (v : VideoData) (c : Option ChannelData)
    (rawDays : ℤ)
    (h1 : 0 < t.views_per_day) (h2 : 0 < t.like_ratio)
    (h3 : 0 < t.comment_ratio) (h4 : 0 < t.engagement_score) :
    0 ≤ viralScoreFinal t v c rawDays ∧ viralScoreFinal t v c rawDays ≤ 100 := by
  obtain ⟨⟨a1, _⟩, ⟨b1, _⟩, ⟨c1, _⟩, ⟨d1, _⟩⟩ := scoreComponents_bounds t v rawDays h1 h2 h3 h4
  have hbonus := channelBonus_nonneg (channelPerformanceRatio v c)
  constructor
  · apply le_min (by norm_num)
    unfold viralScorePre componentsSum
    linarith
  · exact min_le_left _ _

/-! ## Claim theorems for the viral scorer -/

/-- C7: for every video the `days_since_published` figure computed by
`calculate_viral_score` is an integer at least 1 — including when the raw
whole-day difference is 0, i.e. when `published_at` equals the current
time. -/
theorem days_since_published_at_least_one (t : Thresholds) (v : VideoData)
    (ch : Option ChannelData) (rawDays : ℤ) :
    1 ≤ (calculate_viral_score t v ch rawDays).days_since_published := by
  simp only [calculate_viral_score]
  exact le_max_left 1 rawDays

/-- C1 (amended): with the default thresholds, the `viral_score` returned by
`calculate_viral_score` always lies in `[0, 100]`, and the returned
`is_viral` flag is true if and only if the *unrounded* viral score (the
clamped score before the 2-decimal rounding applied to the returned
`viral_score` field) is at least 70. -/
theorem viralScore_in_range_and_isViral_iff_unrounded (v : VideoData)
    (ch : Option ChannelData) (rawDays : ℤ) :
    0 ≤ (calculate_viral_score VIRAL_THRESHOLDS v ch rawDays).viral_score ∧
    (calculate_viral_score VIRAL_THRESHOLDS v ch rawDays).viral_score ≤ 100 ∧
    ((calculate_viral_score VIRAL_THRESHOLDS v ch rawDays).is_viral = true ↔
      70 ≤ viralScoreFinal VIRAL_THRESHOLDS v ch rawDays) := by
  have hb := viralScoreFinal_bounds VIRAL_THRESHOLDS v ch rawDays
    (by norm_num [VIRAL_THRESHOLDS]) (by norm_num [VIRAL_THRESHOLDS])
    (by norm_num [VIRAL_THRESHOLDS]) (by norm_num [VIRAL_THRESHOLDS])
  refine ⟨?_, ?_, ?_⟩
  · simp only [calculate_viral_score]
    exact pyRound_nonneg 2 hb.1
  · simp only [calculate_viral_score]
    have h100 := pyRound_le (M := 100) 2 (by exact_mod_cast hb.2)
    exact_mod_cast h100
  · simp only [calculate_viral_score, decide_eq_true_eq]

/-- C1 counterexample: for a video with 1 250 000 views, 16 874 likes and
1 250 comments published 1000 days ago (no channel data), the unrounded
viral score is 69.999, so `is_viral` is false while the *returned*
`viral_score` is rounded up to exactly 70; the claimed equivalence between
`is_viral` and `returned viral_score ≥ 70` therefore fails. -/
theorem viralScore_rounding_breaks_isViral_iff :
    (calculate_viral_score VIRAL_THRESHOLDS ⟨1250000, 16874, 1250⟩ none 1000).is_viral = false ∧
    (calculate_viral_score VIRAL_THRESHOLDS ⟨1250000, 16874, 1250⟩ none 1000).viral_score = 70 ∧
    ¬ (((calculate_viral_score VIRAL_THRESHOLDS ⟨1250000, 16874, 1250⟩ none 1000).is_viral = true) ↔
        70 ≤ (calculate_viral_score VIRAL_THRESHOLDS ⟨1250000, 16874, 1250⟩ none 1000).viral_score) := by
  have hf : viralScoreFinal VIRAL_THRESHOLDS ⟨1250000, 16874, 1250⟩ none 1000 = 69999/1000 := by
    norm_num [viralScoreFinal, viralScorePre, componentsSum, scoreComponents,
      viewsPerDay, likeRatio, commentRatio, engagementScore,
      channelPerformanceRatio, channelBonus, daysSincePublished, VIRAL_THRESHOLDS, min_def]
  have hv : (calculate_viral_score VIRAL_THRESHOLDS ⟨1250000, 16874, 1250⟩ none 1000).viral_score = 70 := by
    simp only [calculate_viral_score, hf]
    rw [pyRound, pyRoundInt, Int.fract]
    norm_num
  have hb : (calculate_viral_score VIRAL_THRESHOLDS ⟨1250000, 16874, 1250⟩ none 1000).is_viral = false := by
    simp only [calculate_viral_score, hf]
    norm_num
  refine ⟨hb, hv, ?_⟩
  rw [hb, hv]
  norm_num

/-- C2: each of the four sub-scores of `calculate_viral_score` equals
`min(raw_metric / threshold * 25, 25)` for its metric, each lies in
`[0, 25]` when the thresholds are positive (the counts are non-negative by
type), and the final (clamped, unrounded) viral score equals
`min(100, sum of the four sub-scores + channel bonus)`. -/
theorem subScores_formula_bounds_and_clamp (t : Thresholds) (v : VideoData)
    (ch : Option ChannelData) (rawDays : ℤ)
    (h1 : 0 < t.views_per_day) (h2 : 0 < t.like_ratio)
    (h3 : 0 < t.comment_ratio) (h4 : 0 < t.engagement_score) :
    ((calculate_viral_score t v ch rawDays).score_components = scoreComponents t v rawDays ∧
      (scoreComponents t v rawDays).views_per_day_score =
        min (viewsPerDay v rawDays / t.views_per_day * 25) 25 ∧
      (scoreComponents t v rawDays).like_ratio_score =
        min (likeRatio v / t.like_ratio * 25) 25 ∧
      (scoreComponents t v rawDays).comment_ratio_score =
        min (commentRatio v / t.comment_ratio * 25) 25 ∧
      (scoreComponents t v rawDays).engagement_score =
        min (engagementScore v / t.engagement_score * 25) 25) ∧
    ((0 ≤ (scoreComponents t v rawDays).views_per_day_score ∧
        (scoreComponents t v rawDays).views_per_day_score ≤ 25) ∧
      (0 ≤ (scoreComponents t v rawDays).like_ratio_score ∧
        (scoreComponents t v rawDays).like_ratio_score ≤ 25) ∧
      (0 ≤ (scoreComponents t v rawDays).comment_ratio_score ∧
        (scoreComponents t v rawDays).comment_ratio_score ≤ 25) ∧
      (0 ≤ (scoreComponents t v rawDays).engagement_score ∧
        (scoreComponents t v rawDays).engagement_score ≤ 25)) ∧
    viralScoreFinal t v ch rawDays =
      min 100 (componentsSum (scoreComponents t v rawDays) +
        channelBonus (channelPerformanceRatio v ch)) := by
  refine ⟨⟨rfl, rfl, rfl, rfl, rfl⟩, scoreComponents_bounds t v rawDays h1 h2 h3 h4, rfl⟩

/-- Witness for C2 at the default thresholds and a concrete video. -/
theorem subScores_formula_bounds_and_clamp_witness :
    (0 ≤ (scoreComponents VIRAL_THRESHOLDS ⟨100, 10, 2⟩ 1).views_per_day_score ∧
      (scoreComponents VIRAL_THRESHOLDS ⟨100, 10, 2⟩ 1).views_per_day_score ≤ 25) ∧
    (0 ≤ (scoreComponents VIRAL_THRESHOLDS ⟨100, 10, 2⟩ 1).like_ratio_score ∧
      (scoreComponents VIRAL_THRESHOLDS ⟨100, 10, 2⟩ 1).like_ratio_score ≤ 25) ∧
    (0 ≤ (scoreComponents VIRAL_THRESHOLDS ⟨100, 10, 2⟩ 1).comment_ratio_score ∧
      (scoreComponents VIRAL_THRESHOLDS ⟨100, 10, 2⟩ 1).comment_ratio_score ≤ 25) ∧
    (0 ≤ (scoreComponents VIRAL_THRESHOLDS ⟨100, 10, 2⟩ 1).engagement_score ∧
      (scoreComponents VIRAL_THRESHOLDS ⟨100, 10, 2⟩ 1).engagement_score ≤ 25) :=
  (subScores_formula_bounds_and_clamp VIRAL_THRESHOLDS ⟨100, 10, 2⟩ none 1
    (by norm_num [VIRAL_THRESHOLDS]) (by norm_num [VIRAL_THRESHOLDS])
    (by norm_num [VIRAL_THRESHOLDS]) (by norm_num [VIRAL_THRESHOLDS])).2.1

/-- C3: with no channel data the channel-performance ratio is 1 and the
bonus is 0; with channel data whose `subscriber_count` is positive the
ratio is `view_count / max(subscriber_count * 0.1, 1)`; the bonus is
`min(20, (ratio - 1) * 5)` exactly when the ratio exceeds 2 and 0
otherwise; and the pre-clamp score is the component sum plus this bonus. -/
theorem channelRatio_default_and_bonus (t : Thresholds) (v : VideoData) (rawDays : ℤ) :
    channelPerformanceRatio v none = 1 ∧
    channelBonus (channelPerformanceRatio v none) = 0 ∧
    (∀ ch : ChannelData, 0 < ch.subscriber_count →
      channelPerformanceRatio v (some ch) =
        (v.view_count : ℚ) / max ((ch.subscriber_count : ℚ) * (1/10)) 1) ∧
    (∀ r : ℚ, 2 < r → channelBonus r = min 20 ((r - 1) * 5)) ∧
    (∀ r : ℚ, r ≤ 2 → channelBonus r = 0) ∧
    (∀ ch : Option ChannelData, viralScorePre t v ch rawDays =
      componentsSum (scoreComponents t v rawDays) +
        channelBonus (channelPerformanceRatio v ch)) := by
  have h0 : channelPerformanceRatio v none = 1 := rfl
  refine ⟨h0, by rw [h0]; norm_num [channelBonus], ?_, ?_, ?_, fun _ => rfl⟩
  · intro ch hch
    simp only [channelPerformanceRatio, if_pos hch]
  · intro r hr
    simp only [channelBonus, if_pos hr]
  · intro r hr
    simp only [channelBonus, if_neg (not_lt.mpr hr)]

/-- Witness for C3 at concrete inputs. -/
theorem channelRatio_default_and_bonus_witness :
    channelPerformanceRatio ⟨1000, 0, 0⟩ (some ⟨100⟩) =
      ((1000 : ℕ) : ℚ) / max (((100 : ℕ) : ℚ) * (1/10)) 1 ∧
    channelBonus 3 = min 20 ((3 - 1) * 5) ∧
    channelBonus 1 = 0 := by
  obtain ⟨-, -, h3, h4, h5, -⟩ := channelRatio_default_and_bonus VIRAL_THRESHOLDS ⟨1000, 0, 0⟩ 1
  exact ⟨h3 ⟨100⟩ (by norm_num), h4 3 (by norm_num), h5 1 (by norm_num)⟩

/-- C6: whenever `hours_since_upload < 1` (in particular 0),
`predict_viral_potential` returns the insufficient-data result, which
carries no `viral_potential_score`. -/
theorem predict_insufficient_hours (t : Thresholds) (v : VideoData) (h : ℚ)
    (hh : h < 1) :
    predict_viral_potential t v h = .insufficientData ∧
    (predict_viral_potential t v h).getScore = none := by
  have heq : predict_viral_potential t v h = .insufficientData := by
    unfold predict_viral_potential
    rw [if_pos hh]
  exact ⟨heq, by rw [heq]; rfl⟩

/-- Witness for C6 at `hours_since_upload = 0`. -/
theorem predict_insufficient_hours_witness :
    predict_viral_potential VIRAL_THRESHOLDS ⟨0, 0, 0⟩ 0 = .insufficientData ∧
    (predict_viral_potential VIRAL_THRESHOLDS ⟨0, 0, 0⟩ 0).getScore = none :=
  predict_insufficient_hours VIRAL_THRESHOLDS ⟨0, 0, 0⟩ 0 (by norm_num)

/-! ## Trend analysis (`analyze_trends`, viral_analyzer.py lines 72-111)

The input DataFrame is modelled as a list of rows.  A parsed timestamp is
modelled by its epoch-day number (1970-01-01 = day 0, a Thursday) and its
hour, the only two projections the code uses (`dt.day_name()`, `dt.hour`).
Because the code assigns three new columns to the DataFrame it was passed
(`videos_df['published_date'] = ...` and so on mutates the caller's
object), `analyze_trends` returns the post-call state of the input rows
alongside the result dict. -/

/-- A parsed `published_at` timestamp: epoch day and hour of day. -/
structure PyDateTime where
  epochDay : ℤ
  hour : ℕ
deriving DecidableEq

/-- `dt.day_name()` from the epoch-day number; day 0 (1970-01-01) was a
Thursday. -/
def dayName (d : ℤ) : String :=
  match (d % 7).toNat with
  | 0 => "Thursday"
  | 1 => "Friday"
  | 2 => "Saturday"
  | 3 => "Sunday"
  | 4 => "Monday"
  | 5 => "Tuesday"
  | _ => "Wednesday"

/-- One row of the `videos_df` DataFrame.  The last three columns do not
exist before the call (`none`); `analyze_trends` fills them in. -/
structure TrendRow where
  published_at : PyDateTime
  view_count : ℕ
  like_count : ℕ
  comment_count : ℕ
  category_id : String
  published_date : Option PyDateTime := none
  published_day : Option String := none
  published_hour : Option ℕ := none
deriving DecidableEq

/-- The effect on one row of the three column assignments of lines 86-88. -/
def addTimeColumns (r : TrendRow) : TrendRow :=
  { r with
    published_date := some r.published_at
    published_day := some (dayName r.published_at.epochDay)
    published_hour := some r.published_at.hour }

/-- Stable insertion used to model Python's/pandas' stable sorts: `keep y x`
means the already-placed `y` stays in front of the element `x` being
inserted, so ties keep their original order when `keep` is strict. -/
def insertStable {α : Type} (keep : α → α → Bool) (x : α) : List α → List α
  | [] => [x]
  | y :: ys => if keep y x then y :: insertStable keep x ys else x :: y :: ys

/-- Stable sort (the result of any stable sorting algorithm, e.g. the one
used by Python's `sorted`). -/
def sortStable {α : Type} (keep : α → α → Bool) (l : List α) : List α :=
  l.foldr (insertStable keep) []

/-- Distinct values in order of first occurrence. -/
def distinctKeys {κ : Type} [DecidableEq κ] (ks : List κ) : List κ :=
  ks.foldl (fun acc k => if k ∈ acc then acc else acc ++ [k]) []

/-- Mean of a list of rationals (`Series.mean` on a non-empty group). -/
def meanOf (xs : List ℚ) : ℚ := xs.sum / (xs.length : ℚ)

/-- `videos_df.groupby(key)['view_count'].mean()`: group keys in ascending
order (pandas sorts group keys), with the mean view count of each group. -/
def groupMeanViews {κ : Type} [DecidableEq κ] (lt : κ → κ → Bool)
    (key : TrendRow → κ) (rows : List TrendRow) : List (κ × ℚ) :=
  (sortStable lt (distinctKeys (rows.map key))).map
    (fun k => (k, meanOf ((rows.filter (fun r => key r = k)).map
      (fun r => (r.view_count : ℚ)))))

/-- One row of the `category_stats` aggregation (lines 97-101), after
`.round(2)`. -/
structure CategoryStat where
  view_count_mean : ℚ
  view_count_count : ℕ
  like_count_mean : ℚ
  comment_count_mean : ℚ
deriving DecidableEq

/-- The dict built at lines 103-111. -/
structure TrendSummary where
  daily_trends : List (String × ℚ)
  hourly_trends : List (ℕ × ℚ)
  category_stats : List (String × CategoryStat)
  total_videos : ℕ
  avg_views : ℚ
  top_performing_day : Option String
  optimal_upload_hour : Option ℕ
deriving DecidableEq

/-- The value returned by `analyze_trends`: the empty dict `{}` for an empty
input (line 83), or the populated summary dict. -/
inductive TrendOutput where
  | empty
  | full (s : TrendSummary)
deriving DecidableEq

/-- Dict lookup `result.get('total_videos')`: absent on the empty dict. -/
def TrendOutput.getTotalVideos : TrendOutput → Option ℕ
  | .empty => none
  | .full s => some s.total_videos

/-- Dict lookup `result.get('top_performing_day')`. -/
def TrendOutput.getTopPerformingDay : TrendOutput → Option String
  | .empty => none
  | .full s => s.top_performing_day

/-- `ViralAnalyzer.analyze_trends` (lines 72-111).  The first component of
the result is the state of the caller's DataFrame after the call: the
column assignments of lines 86-88 add three columns to every row of the
*input* frame (pandas mutates in place).  Group keys are sorted ascending
(`groupby` default) and the mean series descending by value
(`sort_values(ascending=False)`, modelled as a stable sort). -/
def analyze_trends (rows : List TrendRow) : List TrendRow × TrendOutput :=
  match rows with
  | [] => ([], .empty)
  | _ :: _ =>
    let rows2 := rows.map addTimeColumns
    let daily_avg_views :=
      sortStable (fun a b => decide (b.2 < a.2))
        (groupMeanViews (fun a b => decide (a < b)) (fun r => r.published_day.getD "") rows2)
    let hourly_avg_views :=
      sortStable (fun a b => decide (b.2 < a.2))
        (groupMeanViews (fun a b => decide (a < b)) (fun r => r.published_hour.getD 0) rows2)
    let categories := sortStable (fun a b => decide (a < b))
      (distinctKeys (rows2.map (fun r => r.category_id)))
    let category_stats := categories.map (fun k =>
      let grp := rows2.filter (fun r => r.category_id = k)
      (k, { view_count_mean := pyRound 2 (meanOf (grp.map (fun r => (r.view_count : ℚ))))
            view_count_count := grp.length
            like_count_mean := pyRound 2 (meanOf (grp.map (fun r => (r.like_count : ℚ))))
            comment_count_mean := pyRound 2 (meanOf (grp.map (fun r => (r.comment_count : ℚ))))
            : CategoryStat }))
    (rows2,
      .full
        { daily_trends := daily_avg_views
          hourly_trends := hourly_avg_views
          category_stats := category_stats
          total_videos := rows2.length
          avg_views := meanOf (rows2.map (fun r => (r.view_count : ℚ)))
          top_performing_day := daily_avg_views.head?.map Prod.fst
          optimal_upload_hour := hourly_avg_views.head?.map Prod.fst })

/-! ## Claim theorems for the trend summarizer -/

/-- C4 counterexample: `analyze_trends` does *not* leave the input records
unchanged — on a one-row input, the row acquires `published_date`,
`published_day` and `published_hour` fields it did not have before. -/
theorem analyzeTrends_mutates_input :
    (analyze_trends [⟨⟨0, 5⟩, 10, 1, 1, "1", none, none, none⟩]).1 ≠
      [⟨⟨0, 5⟩, 10, 1, 1, "1", none, none, none⟩] := by
  decide

/-- C4 (amended): `analyze_trends` never modifies or removes an existing
field of any input record, but (for a non-empty input) it adds the three
derived time columns `published_date`, `published_day`, `published_hour` to
every record of the caller's collection. -/
theorem analyzeTrends_adds_time_columns_only (rows : List TrendRow) :
    (analyze_trends rows).1 = rows.map addTimeColumns ∧
    (∀ r : TrendRow,
      (addTimeColumns r).published_at = r.published_at ∧
      (addTimeColumns r).view_count = r.view_count ∧
      (addTimeColumns r).like_count = r.like_count ∧
      (addTimeColumns r).comment_count = r.comment_count ∧
      (addTimeColumns r).category_id = r.category_id ∧
      (addTimeColumns r).published_date = some r.published_at ∧
      (addTimeColumns r).published_day = some (dayName r.published_at.epochDay) ∧
      (addTimeColumns r).published_hour = some r.published_at.hour) := by
  constructor
  · cases rows with
    | nil => rfl
    | cons r rs => rfl
  · intro r
    exact ⟨rfl, rfl, rfl, rfl, rfl, rfl, rfl, rfl⟩

/-- C5 counterexample: on the empty collection `analyze_trends` returns the
empty dict `{}`, so the claim that the result has `total_videos = 0` fails
— the key is absent altogether (lookup yields `none`, not `some 0`). -/
theorem analyzeTrends_empty_total_videos_absent :
    (analyze_trends ([] : List TrendRow)).2 = TrendOutput.empty ∧
    TrendOutput.getTotalVideos (analyze_trends ([] : List TrendRow)).2 ≠ some 0 :=
  ⟨rfl, by decide⟩

/-- C5 (amended): on the empty collection `analyze_trends` raises no
exception and returns the empty dict: the input is left untouched, and both
`total_videos` and `top_performing_day` are absent from the result (lookups
yield `none`; in particular `total_videos` is not present with value 0). -/
theorem analyzeTrends_empty_result_fields :
    analyze_trends ([] : List TrendRow) = ([], TrendOutput.empty) ∧
    TrendOutput.getTotalVideos (analyze_trends ([] : List TrendRow)).2 = none ∧
    TrendOutput.getTopPerformingDay (analyze_trends ([] : List TrendRow)).2 = none :=
  ⟨rfl, rfl, rfl⟩

/-! ## Keyword extraction (`keyword_analyzer.py`)

We model the environment in which the optional NLP libraries (KoNLPy for
Korean morphology, NLTK for POS tagging) are *not* installed, which both
the code (keyword_analyzer.py lines 30-46, 111-112, 144-145) and the spec
(§4.3) handle by falling back to the always-available simple tokenizer
`extract_simple_keywords`.

Python's Unicode-aware `\w` character class is modelled on the character
ranges this corpus uses: ASCII alphanumerics, underscore, and Hangul
syllables (`가`-`힣`); `str.isdigit` / `str.lower` are modelled on their
ASCII behaviour. -/

/-- A character in the Hangul-syllable range `가`-`힣`. -/
def isHangulSyllable (c : Char) : Bool :=
  0xAC00 ≤ c.toNat && c.toNat ≤ 0xD7A3

/-- Python regex `\w` (word character), restricted to ASCII + Hangul. -/
def isWordChar (c : Char) : Bool :=
  c.isAlphanum || c == '_' || isHangulSyllable c

/-- The character class of the URL regex at keyword_analyzer.py line 178:
`[a-zA-Z]|[0-9]|[$-_@.&+]|[!*\\(\\),]|%[0-9a-fA-F]{2}` as a character set.
`[$-_]` is the ASCII range 0x24-0x5F, which already contains the digits,
the upper-case letters, `@.&+*\(),%`; the extra characters are the
lower-case letters and `!`. -/
def urlChar (c : Char) : Bool :=
  c.isAlpha || (0x24 ≤ c.toNat && c.toNat ≤ 0x5F) || c == '!'

/-- The character class `[\w.-]` of the `www` regex at line 179. -/
def wwwBodyChar (c : Char) : Bool :=
  isWordChar c || c == '.' || c == '-'

/-- `re.sub(r'http[s]?://(…)+', '', text)` (line 178): drop every maximal
non-empty run of `urlChar`s that follows a literal `http://` or
`https://`.  Structural recursion on a fuel bound (one character of the
input is consumed per step, so `l.length` fuel always suffices). -/
def removeHttpUrlsAux : ℕ → List Char → List Char
  | 0, l => l
  | _ + 1, [] => []
  | fuel + 1, 'h' :: 't' :: 't' :: 'p' :: 's' :: ':' :: '/' :: '/' :: rest =>
    if (rest.takeWhile urlChar).isEmpty then
      'h' :: removeHttpUrlsAux fuel ('t' :: 't' :: 'p' :: 's' :: ':' :: '/' :: '/' :: rest)
    else removeHttpUrlsAux fuel (rest.dropWhile urlChar)
  | fuel + 1, 'h' :: 't' :: 't' :: 'p' :: ':' :: '/' :: '/' :: rest =>
    if (rest.takeWhile urlChar).isEmpty then
      'h' :: removeHttpUrlsAux fuel ('t' :: 't' :: 'p' :: ':' :: '/' :: '/' :: rest)
    else removeHttpUrlsAux fuel (rest.dropWhile urlChar)
  | fuel + 1, c :: cs => c :: removeHttpUrlsAux fuel cs

def removeHttpUrls (l : List Char) : List Char := removeHttpUrlsAux l.length l

/-- Length of the leading run of word characters. -/
def wordRunLen (l : List Char) : ℕ := (l.takeWhile isWordChar).length

/-- Scan the body run following `www.` for the end position of the regex
match `[\w.-]+\.\w+`: greedy matching with backtracking ends the match at
the word-run following the rightmost dot that is preceded by at least one
body character and followed by at least one word character. -/
def wwwScan : ℕ → Option ℕ → List Char → Option ℕ
  | _, best, [] => best
  | acc, best, '.' :: cs =>
    wwwScan (acc + 1)
      (if 1 ≤ acc ∧ 1 ≤ wordRunLen cs then some (acc + 1 + wordRunLen cs) else best) cs
  | acc, best, _ :: cs => wwwScan (acc + 1) best cs

/-- `re.sub(r'www\.[\w.-]+\.\w+', '', text)` (line 179), fuel-structured
like `removeHttpUrlsAux`. -/
def removeWwwAux : ℕ → List Char → List Char
  | 0, l => l
  | _ + 1, [] => []
  | fuel + 1, 'w' :: 'w' :: 'w' :: '.' :: rest =>
    (match wwwScan 0 none (rest.takeWhile wwwBodyChar) with
     | some n => removeWwwAux fuel (rest.drop n)
     | none => 'w' :: removeWwwAux fuel ('w' :: 'w' :: '.' :: rest))
  | fuel + 1, c :: cs => c :: removeWwwAux fuel cs

def removeWww (l : List Char) : List Char := removeWwwAux l.length l

/-- `re.sub(r'[^\w\s가-힣]', ' ', text)` (line 182) on one character. -/
def cleanChar (c : Char) : Char :=
  if isWordChar c || c.isWhitespace then c else ' '

/-- Python `str.split()` with no separator: split on whitespace runs,
discarding empty pieces. -/
def splitWsAux : List Char → List Char → List String
  | [], cur => if cur.isEmpty then [] else [String.mk cur.reverse]
  | c :: cs, cur =>
    if c.isWhitespace then
      if cur.isEmpty then splitWsAux cs [] else String.mk cur.reverse :: splitWsAux cs []
    else splitWsAux cs (c :: cur)

def pySplitWhitespace (l : List Char) : List String := splitWsAux l []

/-- Python `str.lower()` (ASCII model). -/
def pyLower (w : String) : String := String.mk (w.data.map Char.toLower)

/-- Python `str.isdigit()` (ASCII model): non-empty and all digits. -/
def pyIsDigit (w : String) : Bool := !w.data.isEmpty && w.data.all Char.isDigit

/-- `pat` occurs as a contiguous sublist (`re.search` with a literal). -/
def containsSub (pat : List Char) : List Char → Bool
  | [] => pat.isPrefixOf ([] : List Char)
  | c :: cs => pat.isPrefixOf (c :: cs) || containsSub pat cs

/-- `KeywordAnalyzer.is_url_fragment` (lines 203-221): the anchored
patterns become prefix/suffix tests, the unanchored ones substring tests. -/
def is_url_fragment (w : String) : Bool :=
  let l := w.data
  "www".data.isPrefixOf l ||
  ".com".data.isSuffixOf l ||
  ".net".data.isSuffixOf l ||
  ".org".data.isSuffixOf l ||
  ".kr".data.isSuffixOf l ||
  ".co".data.isSuffixOf l ||
  "http".data.isPrefixOf l ||
  "https".data.isPrefixOf l ||
  containsSub "youtube".data l ||
  containsSub "youtu.be".data l

/-- `KeywordAnalyzer.is_meaningless_word` (lines 223-237): three or more
repeats of a single character, or no word character at all, or length
outside `[2, 20]`. -/
def is_meaningless_word (w : String) : Bool :=
  let l := w.data
  (match l with
   | c :: rest => 3 ≤ l.length && rest.all (fun d => d == c)
   | [] => false) ||
  (!l.isEmpty && l.all (fun c => !isWordChar c)) ||
  (l.length < 2 || 20 < l.length)

/-- `config.STOPWORDS_KO` (config.py lines 41-73). -/
def STOPWORDS_KO : List String :=
  ["그", "를", "을", "에", "의", "가", "이", "은", "는", "와", "과", "로", "으로",
   "에서", "까지", "부터", "보다", "처럼", "같이", "하고", "하지만", "그리고",
   "그런데", "하지만", "그러나", "따라서", "왜냐하면", "때문에", "입니다", "습니다",
   "해요", "이에요", "예요", "네요", "요", "다", "야", "아", "어", "여",
   "www", "http", "https", "com", "net", "org", "kr", "co", "go", "html",
   "php", "asp", "jsp", "url", "link", "site", "page", "web", "blog",
   "youtube", "youtu", "be", "watch", "video", "channel", "subscribe",
   "like", "comment", "share", "follow", "instagram", "facebook", "twitter",
   "tiktok", "shorts", "live", "stream", "streaming",
   "더", "많은", "정말", "진짜", "완전", "너무", "아주", "매우", "정말로",
   "이런", "저런", "그런", "어떤", "무슨", "어느", "모든", "전체", "일부",
   "각각", "각자", "서로", "함께", "같이", "모두", "전부", "하나", "둘", "셋",
   "오늘", "어제", "내일", "지금", "현재", "과거", "미래", "언제", "항상",
   "가끔", "종종", "자주", "때때로", "이제", "벌써", "아직", "still", "already",
   "아", "어", "오", "우", "와", "워", "음", "으", "흠", "헉", "어머", "세상",
   "대박", "ㅋㅋ", "ㅎㅎ", "ㅠㅠ", "ㅜㅜ", "ㅇㅇ", "ㄷㄷ", "ㅉㅉ",
   "개", "명", "번", "회", "차", "등", "위", "순", "째", "년", "월", "일",
   "시", "분", "초", "원", "만", "억", "천", "백", "십"]

/-- `config.STOPWORDS_EN` (config.py lines 76-97). -/
def STOPWORDS_EN : List String :=
  ["the", "a", "an", "and", "or", "but", "in", "on", "at", "to", "for",
   "of", "with", "by", "as", "is", "are", "was", "were", "be", "been",
   "have", "has", "had", "do", "does", "did", "will", "would", "could",
   "should", "may", "might", "can", "this", "that", "these", "those",
   "www", "http", "https", "com", "net", "org", "html", "php", "asp",
   "url", "link", "site", "page", "web", "blog", "domain", "server",
   "youtube", "video", "watch", "channel", "subscribe", "like", "comment",
   "share", "view", "views", "subscriber", "followers", "content",
   "media", "social", "platform", "streaming", "live", "upload",
   "more", "most", "very", "really", "just", "only", "also", "even",
   "still", "already", "yet", "now", "then", "here", "there", "where",
   "what", "when", "why", "how", "who", "which", "all", "some", "any",
   "each", "every", "both", "either", "neither", "other", "another"]

/-- Insertion-ordered counter update: the Python dict/`Counter` idiom
`d[k] = d.get(k, 0) + delta` — existing keys are updated in place, new
keys appended at the end. -/
def bump (acc : List (String × ℕ)) (k : String) (d : ℕ) : List (String × ℕ) :=
  if acc.any (fun p => p.1 == k) then
    acc.map (fun p => if p.1 = k then (p.1, p.2 + d) else p)
  else acc ++ [(k, d)]

/-- `collections.Counter(ws)`: counts keyed in first-occurrence order. -/
def counterList (ws : List String) : List (String × ℕ) :=
  ws.foldl (fun a w => bump a w 1) []

/-- Comparator for the stable descending-by-count sorts: the already-placed
element stays in front iff its count is strictly larger. -/
def keepByCountDesc (y x : String × ℕ) : Bool := decide (x.2 < y.2)

/-- `Counter.most_common(n)` / `sorted(…, key=count, reverse=True)[:n]`:
stable sort descending by count, ties in first-insertion order. -/
def mostCommon (n : ℕ) (l : List (String × ℕ)) : List (String × ℕ) :=
  (sortStable keepByCountDesc l).take n

/-- `KeywordAnalyzer.extract_simple_keywords` (lines 173-201). -/
def extract_simple_keywords (text : String) (max_keywords : ℕ) : List (String × ℕ) :=
  let chars := removeWww (removeHttpUrls text.data)
  let words := pySplitWhitespace (chars.map cleanChar)
  let filtered_words := (words.filter (fun w =>
    let wl := pyLower w
    2 < w.length && !pyIsDigit w &&
    !(STOPWORDS_KO.contains wl) && !(STOPWORDS_EN.contains wl) &&
    !(is_url_fragment wl) && !(is_meaningless_word wl))).map pyLower
  mostCommon max_keywords (counterList filtered_words)

/-- `KeywordAnalyzer.detect_language` (lines 87-105).  The float comparison
`korean_chars / total_chars > 0.3` is stated in exact integer arithmetic
(`10 * korean_chars > 3 * total_chars`, with `total_chars > 0`). -/
def detect_language (s : String) : String :=
  let korean_chars := (s.data.filter isHangulSyllable).length
  let total_chars := (s.data.filter (fun c => isHangulSyllable c || c.isAlpha)).length
  if total_chars = 0 then "en"
  else if 3 * total_chars < 10 * korean_chars then "ko" else "en"

/-- `KONLPY_AVAILABLE` in the modelled environment (import fails). -/
def KONLPY_AVAILABLE : Bool := false

/-- `extract_korean_keywords` with `self.okt = None` (lines 111-112):
immediate fallback to the simple tokenizer. -/
def extract_korean_keywords (text : String) (max_keywords : ℕ) : List (String × ℕ) :=
  extract_simple_keywords text max_keywords

/-- `extract_english_keywords` with NLTK unavailable (lines 144-145):
immediate fallback to the simple tokenizer. -/
def extract_english_keywords (text : String) (max_keywords : ℕ) : List (String × ℕ) :=
  extract_simple_keywords text max_keywords

/-- A Python value passed as the `text` argument: a `str`, or anything
that is not a `str`. -/
inductive PyObj where
  | str (s : String)
  | nonStr
deriving DecidableEq

/-- `KeywordAnalyzer.extract_keywords_from_text` (lines 61-85): empty or
non-string input yields `[]`; otherwise the language is resolved (`auto` →
`detect_language`) and the Korean path is taken only when the morphological
analyzer is available, falling through to the English/simple path. -/
def extract_keywords_from_text (text : PyObj) (language : String)
    (max_keywords : ℕ) : List (String × ℕ) :=
  match text with
  | .nonStr => []
  | .str s =>
    if s = "" then []
    else
      let lang := if language = "auto" then detect_language s else language
      if lang = "ko" ∧ KONLPY_AVAILABLE = true then extract_korean_keywords s max_keywords
      else extract_english_keywords s max_keywords

/-- `' '.join(strings)`. -/
def joinSpace : List String → String
  | [] => ""
  | [s] => s
  | s :: rest => s ++ " " ++ joinSpace rest

/-- The fields of a video record used by `analyze_video_keywords`
(`video.get('title', '')`, `video.get('description', '')`,
`video.get('tags')`). -/
structure KVideoRecord where
  title : String
  description : String
  tags : List String
deriving DecidableEq

/-- The dict returned by `analyze_video_keywords` (lines 285-291). -/
structure KeywordAnalysisResult where
  title_keywords : List (String × ℕ)
  description_keywords : List (String × ℕ)
  top_tags : List (String × ℕ)
  combined_keywords : List (String × ℕ)
  total_videos_analyzed : ℕ
deriving DecidableEq

/-- The `all_keywords` merge and ranking of lines 271-283: title keywords
weighted ×3, description keywords ×1, tags ×2, accumulated in an
insertion-ordered dict, then stably sorted descending by weight and
truncated to the top 50. -/
def combineKeywords (tk dk tt : List (String × ℕ)) : List (String × ℕ) :=
  let m1 := tk.foldl (fun a p => bump a p.1 (p.2 * 3)) []
  let m2 := dk.foldl (fun a p => bump a p.1 p.2) m1
  let m3 := tt.foldl (fun a p => bump a p.1 (p.2 * 2)) m2
  (sortStable keepByCountDesc m3).take 50

/-- `KeywordAnalyzer.analyze_video_keywords` (lines 239-291). -/
def analyze_video_keywords (videos_data : List KVideoRecord) : KeywordAnalysisResult :=
  let all_tags := (videos_data.map (fun v => v.tags)).flatten
  let title_keywords :=
    extract_keywords_from_text (.str (joinSpace (videos_data.map (fun v => v.title)))) "auto" 30
  let description_keywords :=
    extract_keywords_from_text (.str (joinSpace (videos_data.map (fun v => v.description)))) "auto" 30
  let top_tags := mostCommon 20 (counterList all_tags)
  { title_keywords := title_keywords
    description_keywords := description_keywords
    top_tags := top_tags
    combined_keywords := combineKeywords title_keywords description_keywords top_tags
    total_videos_analyzed := videos_data.length }

/-! ## Lemmas about counters, merging and stable sorting -/

/-- Lookup in an insertion-ordered counter (Python `d.get(k, 0)`). -/
def freqOf (k : String) : List (String × ℕ) → ℕ
  | [] => 0
  | p :: rest => if p.1 = k then p.2 else freqOf k rest

/-- The keys of an association list are pairwise distinct (the dict
invariant). -/
def KeysNodup (l : List (String × ℕ)) : Prop := (l.map Prod.fst).Nodup

lemma any_key_iff {k : String} {a : List (String × ℕ)} :
    a.any (fun p => p.1 == k) = true ↔ ∃ p ∈ a, p.1 = k := by
  simp [List.any_eq_true]

lemma freqOf_eq_zero_of_forall_ne {k : String} {a : List (String × ℕ)}
    (h : ∀ p ∈ a, p.1 ≠ k) : freqOf k a = 0 := by
  induction a with
  | nil => rfl
  | cons p rest ih =>
    rw [freqOf, if_neg (h p (List.mem_cons_self p rest))]
    exact ih fun q hq => h q (List.mem_cons_of_mem p hq)

lemma freqOf_map_update_self {k : String} {d : ℕ} {a : List (String × ℕ)}
    (hex : ∃ p ∈ a, p.1 = k) :
    freqOf k (a.map (fun p => if p.1 = k then (p.1, p.2 + d) else p)) = freqOf k a + d := by
  induction a with
  | nil =>
    obtain ⟨p, hp, -⟩ := hex
    cases hp
  | cons p rest ih =>
    by_cases hp : p.1 = k
    · simp [freqOf, hp]
    · obtain ⟨q, hq, hqk⟩ := hex
      rcases List.mem_cons.mp hq with rfl | hqrest
      · exact absurd hqk hp
      · simp only [List.map_cons, if_neg hp, freqOf]
        exact ih ⟨q, hqrest, hqk⟩

lemma freqOf_append_self {k : String} {d : ℕ} {a : List (String × ℕ)}
    (h : ∀ p ∈ a, p.1 ≠ k) : freqOf k (a ++ [(k, d)]) = d := by
  induction a with
  | nil => simp [freqOf]
  | cons p rest ih =>
    rw [List.cons_append, freqOf, if_neg (h p (List.mem_cons_self p rest))]
    exact ih fun q hq => h q (List.mem_cons_of_mem p hq)

lemma freqOf_bump_self (a : List (String × ℕ)) (k : String) (d : ℕ) :
    freqOf k (bump a k d) = freqOf k a + d := by
  rw [bump]
  split
  · rename_i h
    exact freqOf_map_update_self (any_key_iff.mp h)
  · rename_i h
    have hall : ∀ p ∈ a, p.1 ≠ k := fun p hp hpk => h (any_key_iff.mpr ⟨p, hp, hpk⟩)
    rw [freqOf_append_self hall, freqOf_eq_zero_of_forall_ne hall, Nat.zero_add]

lemma freqOf_bump_other {k k' : String} (hne : k' ≠ k) (a : List (String × ℕ)) (d : ℕ) :
    freqOf k' (bump a k d) = freqOf k' a := by
  rw [bump]
  split
  · rename_i h
    clear h
    induction a with
    | nil => rfl
    | cons p rest ih =>
      by_cases hp : p.1 = k
      · have hp' : ¬ p.1 = k' := by
          rw [hp]
          exact fun hh => hne hh.symm
        simp only [List.map_cons, if_pos hp, freqOf]
        rw [if_neg hp', if_neg hp']
        exact ih
      · simp only [List.map_cons, if_neg hp, freqOf]
        by_cases hq : p.1 = k'
        · rw [if_pos hq, if_pos hq]
        · rw [if_neg hq, if_neg hq]
          exact ih
  · rename_i h
    clear h
    induction a with
    | nil =>
      simp only [List.nil_append, freqOf]
      rw [if_neg fun hh => hne hh.symm]
    | cons p rest ih =>
      rw [List.cons_append, freqOf, freqOf]
      by_cases hq : p.1 = k'
      · rw [if_pos hq, if_pos hq]
      · rw [if_neg hq, if_neg hq]
        exact ih

lemma keysNodup_bump {a : List (String × ℕ)} (h : KeysNodup a) (k : String) (d : ℕ) :
    KeysNodup (bump a k d) := by
  rw [bump]
  split
  · unfold KeysNodup
    have hkeys : (a.map (fun p => if p.1 = k then (p.1, p.2 + d) else p)).map Prod.fst =
        a.map Prod.fst := by
      rw [List.map_map]
      apply List.map_congr_left
      intro p _
      by_cases hp : p.1 = k <;> simp [hp]
    rw [hkeys]
    exact h
  · rename_i hany
    unfold KeysNodup
    rw [List.map_append]
    apply List.Nodup.append h (List.nodup_singleton k)
    intro x hx hx'
    rw [List.mem_singleton] at hx'
    obtain ⟨p, hp, hpk⟩ := List.mem_map.mp hx
    exact hany (any_key_iff.mpr ⟨p, hp, by rw [hpk, hx']⟩)

/-- Folding `bump` over any list preserves the dict invariant. -/
lemma keysNodup_foldl_bump {β : Type} (key : β → String) (δ : β → ℕ)
    (l : List β) (init : List (String × ℕ)) (hinit : KeysNodup init) :
    KeysNodup (l.foldl (fun a b => bump a (key b) (δ b)) init) := by
  induction l generalizing init with
  | nil => exact hinit
  | cons b rest ih => exact ih _ (keysNodup_bump hinit (key b) (δ b))

/-- Folding `bump` with per-entry weight `w` over a list with distinct keys
adds `w (freqOf k l)` to the count of every key `k` (for weight functions
with `w 0 = 0`, which covers the ×3, ×1 and ×2 weights). -/
lemma freqOf_foldl_bump (w : ℕ → ℕ) (hw : w 0 = 0) (l : List (String × ℕ))
    (init : List (String × ℕ)) (k : String) (hl : KeysNodup l) :
    freqOf k (l.foldl (fun a p => bump a p.1 (w p.2)) init) =
      freqOf k init + w (freqOf k l) := by
  induction l generalizing init with
  | nil => simp [freqOf, hw]
  | cons p rest ih =>
    unfold KeysNodup at hl
    rw [List.map_cons, List.nodup_cons] at hl
    obtain ⟨hp, hrest⟩ := hl
    rw [List.foldl_cons, ih _ hrest]
    by_cases hk : p.1 = k
    · have hfr : freqOf k rest = 0 := by
        apply freqOf_eq_zero_of_forall_ne
        intro q hq hqk
        exact hp (List.mem_map.mpr ⟨q, hq, hqk.trans hk.symm⟩)
      simp only [freqOf]
      rw [if_pos hk, hfr, hw, Nat.add_zero, hk, freqOf_bump_self]
    · have hne : k ≠ p.1 := fun hh => hk hh.symm
      simp only [freqOf]
      rw [if_neg hk, freqOf_bump_other hne]

lemma freqOf_of_mem {a : List (String × ℕ)} {p : String × ℕ}
    (h : KeysNodup a) (hp : p ∈ a) : freqOf p.1 a = p.2 := by
  induction a with
  | nil => cases hp
  | cons q rest ih =>
    unfold KeysNodup at h
    rw [List.map_cons, List.nodup_cons] at h
    obtain ⟨hq, hrest⟩ := h
    rcases List.mem_cons.mp hp with rfl | hmem
    · simp [freqOf]
    · have hneq : ¬ q.1 = p.1 := fun hqp =>
        hq (List.mem_map.mpr ⟨p, hmem, hqp.symm⟩)
      rw [freqOf, if_neg hneq]
      exact ih hrest hmem

lemma insertStable_perm {α : Type} (keep : α → α → Bool) (x : α) (l : List α) :
    (insertStable keep x l).Perm (x :: l) := by
  induction l with
  | nil => exact List.Perm.refl _
  | cons y ys ih =>
    rw [insertStable]
    split
    · exact (ih.cons y).trans (List.Perm.swap x y ys)
    · exact List.Perm.refl _

lemma sortStable_perm {α : Type} (keep : α → α → Bool) (l : List α) :
    (sortStable keep l).Perm l := by
  induction l with
  | nil => exact List.Perm.refl _
  | cons x xs ih =>
    exact (insertStable_perm keep x (sortStable keep xs)).trans (ih.cons x)

lemma pairwise_insertStable {α : Type} (keep : α → α → Bool) (R : α → α → Prop)
    (h1 : ∀ a b, keep a b = true → R a b)
    (h2 : ∀ a b, keep a b = false → R b a)
    (htr : ∀ a b c, R a b → R b c → R a c)
    (x : α) (l : List α) (hl : List.Pairwise R l) :
    List.Pairwise R (insertStable keep x l) := by
  induction l with
  | nil => simp [insertStable]
  | cons y ys ih =>
    rw [List.pairwise_cons] at hl
    obtain ⟨hy, hys⟩ := hl
    rw [insertStable]
    split
    · rename_i hk
      rw [List.pairwise_cons]
      refine ⟨?_, ih hys⟩
      intro z hz
      rcases List.mem_cons.mp ((insertStable_perm keep x ys).mem_iff.mp hz) with rfl | hzys
      · exact h1 y z hk
      · exact hy z hzys
    · rename_i hk
      rw [Bool.not_eq_true] at hk
      rw [List.pairwise_cons]
      refine ⟨?_, List.pairwise_cons.mpr ⟨hy, hys⟩⟩
      intro z hz
      rcases List.mem_cons.mp hz with rfl | hzys
      · exact h2 _ _ hk
      · exact htr x y z (h2 y x hk) (hy z hzys)

lemma pairwise_sortStable {α : Type} (keep : α → α → Bool) (R : α → α → Prop)
    (h1 : ∀ a b, keep a b = true → R a b)
    (h2 : ∀ a b, keep a b = false → R b a)
    (htr : ∀ a b c, R a b → R b c → R a c)
    (l : List α) : List.Pairwise R (sortStable keep l) := by
  induction l with
  | nil => exact List.Pairwise.nil
  | cons x xs ih => exact pairwise_insertStable keep R h1 h2 htr x (sortStable keep xs) ih

lemma keysNodup_nil : KeysNodup [] := List.nodup_nil

lemma keysNodup_sortStable (keep : (String × ℕ) → (String × ℕ) → Bool)
    {l : List (String × ℕ)} (h : KeysNodup l) : KeysNodup (sortStable keep l) := by
  unfold KeysNodup at h ⊢
  exact (((sortStable_perm keep l).map Prod.fst).nodup_iff).mpr h

lemma keysNodup_take (n : ℕ) {l : List (String × ℕ)} (h : KeysNodup l) :
    KeysNodup (l.take n) := by
  unfold KeysNodup at h ⊢
  exact h.sublist ((List.take_sublist n l).map Prod.fst)

lemma keysNodup_mostCommon (n : ℕ) {l : List (String × ℕ)} (h : KeysNodup l) :
    KeysNodup (mostCommon n l) :=
  keysNodup_take n (keysNodup_sortStable keepByCountDesc h)

lemma keysNodup_counterList (ws : List String) : KeysNodup (counterList ws) :=
  keysNodup_foldl_bump (fun w => w) (fun _ => 1) ws [] keysNodup_nil

lemma keysNodup_extract_simple (text : String) (mx : ℕ) :
    KeysNodup (extract_simple_keywords text mx) :=
  keysNodup_mostCommon mx (keysNodup_counterList _)

lemma keysNodup_extract (t : PyObj) (lang : String) (mx : ℕ) :
    KeysNodup (extract_keywords_from_text t lang mx) := by
  cases t with
  | nonStr => exact keysNodup_nil
  | str s =>
    simp only [extract_keywords_from_text]
    split
    · exact keysNodup_nil
    · rw [if_neg]
      · exact keysNodup_extract_simple s mx
      · rintro ⟨-, hco⟩
        simp [KONLPY_AVAILABLE] at hco

/-- The combination stage of `analyze_video_keywords`: every entry of the
combined list carries weight `3·(title freq) + 1·(description freq) +
2·(tag freq)` of its term; the list is sorted descending by weight; and it
has at most 50 entries. -/
lemma combineKeywords_spec (tk dk tt : List (String × ℕ))
    (htk : KeysNodup tk) (hdk : KeysNodup dk) (htt : KeysNodup tt) :
    (∀ p ∈ combineKeywords tk dk tt,
      p.2 = 3 * freqOf p.1 tk + freqOf p.1 dk + 2 * freqOf p.1 tt) ∧
    List.Pairwise (fun a b : String × ℕ => b.2 ≤ a.2) (combineKeywords tk dk tt) ∧
    (combineKeywords tk dk tt).length ≤ 50 := by
  have e1 : tk.foldl (fun a p => bump a p.1 (p.2 * 3)) [] =
      tk.foldl (fun a p => bump a p.1 ((fun n => n * 3) p.2)) [] := rfl
  have h1 : KeysNodup (tk.foldl (fun a p => bump a p.1 (p.2 * 3)) []) :=
    keysNodup_foldl_bump Prod.fst (fun p => p.2 * 3) tk [] keysNodup_nil
  have h2 : KeysNodup ((dk.foldl (fun a p => bump a p.1 p.2)
      (tk.foldl (fun a p => bump a p.1 (p.2 * 3)) []))) :=
    keysNodup_foldl_bump Prod.fst Prod.snd dk _ h1
  have h3 : KeysNodup (tt.foldl (fun a p => bump a p.1 (p.2 * 2))
      (dk.foldl (fun a p => bump a p.1 p.2)
        (tk.foldl (fun a p => bump a p.1 (p.2 * 3)) []))) :=
    keysNodup_foldl_bump Prod.fst (fun p => p.2 * 2) tt _ h2
  have hfreq : ∀ k, freqOf k (tt.foldl (fun a p => bump a p.1 (p.2 * 2))
      (dk.foldl (fun a p => bump a p.1 p.2)
        (tk.foldl (fun a p => bump a p.1 (p.2 * 3)) []))) =
      3 * freqOf k tk + freqOf k dk + 2 * freqOf k tt := by
    intro k
    have et : tt.foldl (fun a p => bump a p.1 (p.2 * 2))
        (dk.foldl (fun a p => bump a p.1 p.2)
          (tk.foldl (fun a p => bump a p.1 (p.2 * 3)) [])) =
        tt.foldl (fun a p => bump a p.1 ((fun n => n * 2) p.2))
          (dk.foldl (fun a p => bump a p.1 ((fun n => n) p.2))
            (tk.foldl (fun a p => bump a p.1 ((fun n => n * 3) p.2)) [])) := rfl
    rw [et, freqOf_foldl_bump (fun n => n * 2) rfl tt _ k htt,
      freqOf_foldl_bump (fun n => n) rfl dk _ k hdk,
      freqOf_foldl_bump (fun n => n * 3) rfl tk _ k htk]
    show freqOf k [] + freqOf k tk * 3 + freqOf k dk + freqOf k tt * 2 = _
    have h0 : freqOf k [] = 0 := rfl
    rw [h0]
    ring
  refine ⟨?_, ?_, ?_⟩
  · intro p hp
    have hp2 : p ∈ sortStable keepByCountDesc _ := (List.take_sublist 50 _).subset hp
    have hp3 := (sortStable_perm keepByCountDesc _).mem_iff.mp hp2
    have := freqOf_of_mem h3 hp3
    rw [← this, hfreq p.1]
  · apply List.Pairwise.sublist (List.take_sublist 50 _)
    apply pairwise_sortStable keepByCountDesc (fun a b : String × ℕ => b.2 ≤ a.2)
    · intro a b h
      exact Nat.le_of_lt (of_decide_eq_true h)
    · intro a b h
      exact Nat.le_of_not_lt (of_decide_eq_false h)
    · intro a b c hab hbc
      exact hbc.trans hab
  · exact List.length_take_le 50 _

/-! ## Claim theorems for the keyword analyzer -/

/-- C8: in `analyze_video_keywords`, the combined weight of every term in
`combined_keywords` is the sum over sources of its extracted frequency
times the source weight — title ×3, description ×1, tags ×2 (so a term
appearing once in each source list weighs 3+1+2 = 6); the combined list is
sorted descending by this weight and truncated to the top 50. -/
theorem combined_keywords_weighting (vids : List KVideoRecord) :
    (∀ p ∈ (analyze_video_keywords vids).combined_keywords,
      p.2 = 3 * freqOf p.1 (analyze_video_keywords vids).title_keywords
          + freqOf p.1 (analyze_video_keywords vids).description_keywords
          + 2 * freqOf p.1 (analyze_video_keywords vids).top_tags) ∧
    List.Pairwise (fun a b : String × ℕ => b.2 ≤ a.2)
      (analyze_video_keywords vids).combined_keywords ∧
    (analyze_video_keywords vids).combined_keywords.length ≤ 50 :=
  combineKeywords_spec _ _ _
    (keysNodup_extract _ "auto" 30)
    (keysNodup_extract _ "auto" 30)
    (keysNodup_mostCommon 20 (keysNodup_counterList _))

/-- Witness for C8: one video whose title, description and tag are all
`"apple"`; the term gets frequency 1 from each source and combined weight
3·1 + 1 + 2·1 = 6, and `("apple", 6)` is indeed the sole combined entry. -/
theorem combined_keywords_weighting_witness :
    (("apple", 6) : String × ℕ) ∈
      (analyze_video_keywords [⟨"apple", "apple", ["apple"]⟩]).combined_keywords ∧
    (("apple", 6) : String × ℕ).2 =
      3 * freqOf "apple" (analyze_video_keywords [⟨"apple", "apple", ["apple"]⟩]).title_keywords
      + freqOf "apple" (analyze_video_keywords [⟨"apple", "apple", ["apple"]⟩]).description_keywords
      + 2 * freqOf "apple" (analyze_video_keywords [⟨"apple", "apple", ["apple"]⟩]).top_tags :=
  ⟨by decide,
    (combined_keywords_weighting [⟨"apple", "apple", ["apple"]⟩]).1 ("apple", 6) (by decide)⟩

/-- C9: `extract_keywords_from_text` never raises on malformed input — a
non-string argument and the empty string both yield the empty keyword
list, for every language and keyword cap. -/
theorem extract_keywords_malformed_input_empty (language : String) (max_keywords : ℕ) :
    extract_keywords_from_text .nonStr language max_keywords = [] ∧
    extract_keywords_from_text (.str "") language max_keywords = [] :=
  ⟨rfl, rfl⟩

/-- C10: on the empty collection, `analyze_video_keywords` raises no
exception and returns 0 analyzed videos with all four keyword lists
empty. -/
theorem analyze_video_keywords_empty_collection :
    analyze_video_keywords [] =
      { title_keywords := []
        description_keywords := []
        top_tags := []
        combined_keywords := []
        total_videos_analyzed := 0 } := rfl
